import Mathlib

/-!
# Verification of the hierarchical visual localisation pipeline

Shallow embedding of the retrieval–matching–pose pipeline of `evaluate.py`
and of the `PointCloudSplit` dataset of
`models/cirtorch_utils/genericdataset.py`, together with proofs and
refutations of the specified properties.

Conventions: machine floats that only ever enter comparisons and medians are
modelled as `ℚ`; descriptor vectors are opaque tokens (a type parameter or
`ℕ`); numpy index arrays are `List ℕ`; image ids, which may be negated to
mark augmented images, are `ℤ`; the matchers of `common/feature_matching.py`
(not part of this repository snapshot) are abstract functions returning lists
of `(query index, database index)` pairs.
-/

namespace HLoc

/-! ## Pose solver gate (`evaluate.py` lines 748–777)

`solvePnPRansac` is only called when `matched_pts_xyz.shape[0] > 4`;
otherwise `inliers = None` and `success = False`.  Then
`success &= num_inliers >= args.min_inliers`, and the refinement
(`solvePnP` with warm start) plus the pose computation run under
`if success:`; the output line is finally written only when the refinement
return flag kept `success` true. -/

/-- Outcome of `cv2.solvePnPRansac`: its success flag and the inlier index
list (`None` when RANSAC was not run or found nothing). -/
structure RansacOut where
  success : Bool
  inliers : Option (List ℕ)
deriving DecidableEq

/-- `num_inliers = len(inliers)` with `None ↦ 0` (lines 757–763). -/
def numInliersOf (inl : Option (List ℕ)) : ℕ :=
  match inl with
  | none => 0
  | some l => l.length

/-- Result of the per-query pose stage: whether PnP-RANSAC was called,
the reported inlier count, whether refinement (`cv2.solvePnP`) ran, and the
pose that reaches the output line (`none` on failure). -/
structure PoseResult where
  ransacAttempted : Bool
  numInliers : ℕ
  refinementRun : Bool
  pose : Option ℕ
deriving DecidableEq

/-- Embedding of `evaluate.py` lines 748–777: the correspondence-count gate,
the minimum-inlier gate, and the refinement call.  `nMatched` is
`matched_pts_xyz.shape[0]`, `ransac` the outcome `cv2.solvePnPRansac` would
return, `refineRet` the return flag of `cv2.solvePnP`, and `refinedPose` an
opaque token for the pose computed from its output. -/
def solve_query_pose (nMatched : ℕ) (ransac : RansacOut) (minInliers : ℕ)
    (refineRet : Bool) (refinedPose : ℕ) : PoseResult :=
  if 4 < nMatched then
    let ni := numInliersOf ransac.inliers
    let success := ransac.success && decide (minInliers ≤ ni)
    if success then
      { ransacAttempted := true, numInliers := ni, refinementRun := true,
        pose := if refineRet then some refinedPose else none }
    else
      { ransacAttempted := true, numInliers := ni, refinementRun := false,
        pose := none }
  else
    { ransacAttempted := false, numInliers := 0, refinementRun := false,
      pose := none }

/-! ## Co-visibility cluster builder (`evaluate.py` lines 667–683)

`img_cluster` maps an image id to its co-visibility set (built by
`get_img_cluster`).  The first ranked neighbour seeds `cluster_query` with
its co-visibility set; each later neighbour is looked up in the existing
clusters in creation order (`for j, c in enumerate(cluster_query)`), the
first cluster containing it absorbs its co-visibility set (`break`), and a
neighbour contained in no cluster appends a fresh cluster. -/

/-- The inner `for j, c in enumerate(cluster_query)` loop with `break`:
walk the clusters in order; the first one containing `ind` is replaced by
its union with `cov ind`; if none contains `ind`, append `cov ind`. -/
def insertNeighbor (cov : ℤ → Finset ℤ) (ind : ℤ) :
    List (Finset ℤ) → List (Finset ℤ)
  | [] => [cov ind]
  | c :: cs => if ind ∈ c then (c ∪ cov ind) :: cs else c :: insertNeighbor cov ind cs

/-- The cluster builder: seed with the first neighbour's co-visibility set,
then fold `insertNeighbor` over the remaining neighbours in rank order. -/
def buildClusters (cov : ℤ → Finset ℤ) : List ℤ → List (Finset ℤ)
  | [] => []
  | n :: rest => rest.foldl (fun cs ind => insertNeighbor cov ind cs) [cov n]

/-- Union of a list of clusters. -/
def unionAll : List (Finset ℤ) → Finset ℤ
  | [] => ∅
  | c :: cs => c ∪ unionAll cs

/-! ## Verification-mode self-match removal (`evaluate.py` lines 596–613)

`image_ids` maps a column index of the neighbour matrix to a signed image
id; `img_itself = abs(image_ids[indices[i,0]])`.  The loop walks
`indices[i,1:]`, appends every index whose absolute image id differs from
`img_itself`, and breaks once `j >= args.n_neighbors` — a check made *after*
the candidate of the current iteration has been processed. -/

/-- The `for idx in indices[i,1:]` loop: `lst` is the accumulator, `j` the
count of accumulated non-self neighbours, `k` is `args.n_neighbors`. -/
def cutLoop (ids : ℕ → ℤ) (selfId k : ℕ) :
    List ℕ → List ℕ → ℕ → List ℕ
  | [], lst, _ => lst
  | idx :: rest, lst, j =>
    if (ids idx).natAbs ≠ selfId then
      if k ≤ j + 1 then lst ++ [idx]
      else cutLoop ids selfId k rest (lst ++ [idx]) (j + 1)
    else
      if k ≤ j then lst
      else cutLoop ids selfId k rest lst j

/-- One row of the post-processing: the first candidate defines the query's
own id, the remaining candidates are filtered by `cutLoop`. -/
def indices_cut_row (ids : ℕ → ℤ) (k : ℕ) : List ℕ → List ℕ
  | [] => []
  | first :: rest => cutLoop ids (ids first).natAbs k rest [] 0

/-! ## Bidirectional matching (`evaluate.py` lines 251–264)

`double_matching` runs the matcher forward and backward, returns empty if
either direction is empty, and otherwise keeps the forward matches `m` with
`m[0] in list(matches_reverse[:,1])` — i.e. whose *query* index appears as
the second column of *some* reverse match. -/

/-- Embedding of `double_matching`; `mfn` is `local_matcher.match`, returning
`(row index of first argument, row index of second argument)` pairs. -/
def double_matching {α : Type} (mfn : α → α → List (ℕ × ℕ))
    (query_desc neighbor_desc : α) : List (ℕ × ℕ) :=
  let matches_forward := mfn query_desc neighbor_desc
  let matches_reverse := mfn neighbor_desc query_desc
  if matches_forward.length = 0 ∨ matches_reverse.length = 0 then []
  else
    let mr := matches_reverse.map (fun x => x.2)
    matches_forward.filter (fun m => decide (m.1 ∈ mr))

/-! ## Refiltered local matching (`evaluate.py` lines 266–361)

With `refilter=True` the per-image loop still calls the matcher on each
cluster member; only the *matched* rows `pt_ids[matches[:,1]]` and
`data_desc[matches[:,1]]` are appended to `pt_ids_all` / `data_descs`.
After the loop, if fewer than one (resp. two) such per-image blocks exist,
`matches = np.array([])`; otherwise both pools are concatenated and the
matcher runs once more on the pool; the returned correspondences are the
survivors of that second pass. -/

/-- A database image, as the matcher sees it: the valid 3D point ids and
the descriptors at those keypoints, index-aligned. -/
structure DbImage where
  pt_ids : List ℕ
  descs : List ℕ
deriving DecidableEq

/-- Per-image matching output used by the refilter branch: the matched
3D point ids and the matched descriptors, in match order. -/
def imageBlock (mfn : List ℕ → List ℕ → List (ℕ × ℕ)) (dbl : Bool)
    (query_desc : List ℕ) (img : DbImage) : List ℕ × List ℕ :=
  let ms := if dbl then double_matching mfn query_desc img.descs
                 else mfn query_desc img.descs
  (ms.map (fun m => img.pt_ids.getD m.2 0),
   ms.map (fun m => img.descs.getD m.2 0))

/-- The nested `for c in cluster_query: for img in c:` loop of the refilter
branch, accumulating the per-image blocks that had at least one match. -/
def refilterPools (mfn : List ℕ → List ℕ → List (ℕ × ℕ)) (dbl : Bool)
    (query_desc : List ℕ) (cluster_query : List (List DbImage)) :
    List (List ℕ × List ℕ) :=
  cluster_query.foldl (fun acc c =>
    c.foldl (fun acc img =>
      if 0 < (imageBlock mfn dbl query_desc img).1.length
      then acc ++ [imageBlock mfn dbl query_desc img] else acc) acc) []

/-- The final block of the refilter branch (lines 343–353): concatenate the
pooled point ids and descriptors, rerun the matcher against the pooled
descriptors, and map the surviving matches to
`(query keypoint index, 3D point id)` pairs. -/
def secondPass (mfn : List ℕ → List ℕ → List (ℕ × ℕ)) (dbl : Bool)
    (query_desc : List ℕ) (pools : List (List ℕ × List ℕ)) :
    List (ℕ × ℕ) :=
  (if dbl then double_matching mfn query_desc ((pools.map (fun b => b.2)).flatten)
   else mfn query_desc ((pools.map (fun b => b.2)).flatten)).map
    (fun m => (m.1, ((pools.map (fun b => b.1)).flatten).getD m.2 0))

/-- Embedding of `match_local` with `refilter=True`: pool the per-image
match survivors, bail out with no correspondences unless at least two images
contributed (`len(pt_ids_all) < 1 or len(data_descs) < 2` over two pools of
equal length), else run one more matching pass against the pooled
descriptors. -/
def match_local_refilter (mfn : List ℕ → List ℕ → List (ℕ × ℕ)) (dbl : Bool)
    (query_desc : List ℕ) (cluster_query : List (List DbImage)) :
    List (ℕ × ℕ) :=
  if (refilterPools mfn dbl query_desc cluster_query).length < 1 ∨
      (refilterPools mfn dbl query_desc cluster_query).length < 2 then []
  else secondPass mfn dbl query_desc (refilterPools mfn dbl query_desc cluster_query)

/-- Modelled from the spec: the refiltering behaviour §4.3 describes —
collect, per cluster, all candidate (3D point, descriptor) pairs of all
member images *without* matching per image, concatenate everything into one
pool, and run a single matching pass of the query descriptors against it.
(The code of `common/feature_matching.py` is not part of this snapshot; the
matcher itself stays the abstract `mfn` in both definitions.) -/
def refilter_spec_pool (mfn : List ℕ → List ℕ → List (ℕ × ℕ)) (dbl : Bool)
    (query_desc : List ℕ) (cluster_query : List (List DbImage)) :
    List (ℕ × ℕ) :=
  let pairs := (cluster_query.map (fun c =>
    (c.map (fun img => img.pt_ids.zip img.descs)).flatten)).flatten
  let pt_ids_all := pairs.map (fun p => p.1)
  let data_descs := pairs.map (fun p => p.2)
  let ms := if dbl then double_matching mfn query_desc data_descs
                 else mfn query_desc data_descs
  ms.map (fun m => (m.1, pt_ids_all.getD m.2 0))

/-- The blocks of the member images (all clusters flattened, in order) that
contributed at least one first-pass match. -/
def twopassPools (mfn : List ℕ → List ℕ → List (ℕ × ℕ)) (dbl : Bool)
    (query_desc : List ℕ) (cluster_query : List (List DbImage)) :
    List (List ℕ × List ℕ) :=
  ((cluster_query.flatten).map (imageBlock mfn dbl query_desc)).filter
    (fun b => 0 < b.1.length)

/-- The amended two-pass description of the refilter branch, stated through
`List.map`/`List.filter`/`List.flatten` instead of the nested accumulator
loops: first pass per member image, keep the blocks of images that
contributed at least one match, require at least two such blocks, and rerun
the matcher once against the concatenated survivors. -/
def refilter_twopass (mfn : List ℕ → List ℕ → List (ℕ × ℕ)) (dbl : Bool)
    (query_desc : List ℕ) (cluster_query : List (List DbImage)) :
    List (ℕ × ℕ) :=
  if (twopassPools mfn dbl query_desc cluster_query).length < 2 then []
  else secondPass mfn dbl query_desc (twopassPools mfn dbl query_desc cluster_query)

/-! ## Per-query tail of the main loop (`evaluate.py` lines 772–819)

After the pose stage, the verify branch (lines 794–808) reads the Python
locals `quat` and `position`, which are assigned *only* inside the
`if success:` block of some (current or earlier) iteration; on a failed
first query they are unbound and the interpreter raises `NameError`,
aborting the batch.  The non-verify branch writes an output line only under
`if success:`.  Python locals surviving across iterations are modelled as an
`Option` field of the loop state; reading an unbound local is
`Except.error`. -/

/-- State threaded through the query loop: the last `(quat, position)`
assigned by a successful query (`none` before the first success), the number
of output lines written, and the number of entries appended to `errors`. -/
structure LoopState where
  quatpos : Option (ℕ × ℕ)
  linesWritten : ℕ
  errorsLen : ℕ
deriving DecidableEq

/-- Embedding of lines 772–814 for one query: on success the pose locals are
(re)assigned; in verify mode the error computation dereferences them —
`NameError` (modelled as `Except.error`) when they were never assigned; in
non-verify mode a line is written exactly on success. -/
def query_tail (verify success : Bool) (newPose : ℕ × ℕ) (st : LoopState) :
    Except Unit LoopState :=
  let st1 := if success then { st with quatpos := some newPose } else st
  if verify then
    match st1.quatpos with
    | none => Except.error ()
    | some _ => Except.ok { st1 with errorsLen := st1.errorsLen + 1 }
  else
    if success then Except.ok { st1 with linesWritten := st1.linesWritten + 1 }
    else Except.ok st1

/-- The `for query_id, query_name in enumerate(query_images)` loop over the
per-query tails: an uncaught exception in one iteration terminates the whole
batch. -/
def run_batch (verify : Bool) : List (Bool × (ℕ × ℕ)) → LoopState →
    Except Unit LoopState
  | [], st => Except.ok st
  | q :: rest, st =>
    match query_tail verify q.1 q.2 st with
    | Except.error e => Except.error e
    | Except.ok st1 => run_batch verify rest st1

/-! ## Camera intrinsics fallback (`evaluate.py` lines 642–644 and 737–746)

`backfall_cm = np.median(np.stack(all known camera matrices), axis=0)` is the
per-component median.  Per query: if `query_path not in camera_matrices`,
`camera_matrix = backfall_cm` and the local `cm` is *not* assigned; the
subsequent `distortion_coeff = cm['rad_dist']` then reads the `cm` of an
earlier iteration — or raises `NameError` when no earlier query had known
intrinsics. -/

/-- A 3×3 camera matrix with rational entries. -/
structure Mat3 where
  a00 : ℚ
  a01 : ℚ
  a02 : ℚ
  a10 : ℚ
  a11 : ℚ
  a12 : ℚ
  a20 : ℚ
  a21 : ℚ
  a22 : ℚ
deriving DecidableEq

/-- Insert into a list kept in ascending order. -/
def insertOrd (x : ℚ) : List ℚ → List ℚ
  | [] => [x]
  | y :: ys => if x ≤ y then x :: y :: ys else y :: insertOrd x ys

/-- Insertion sort, ascending. -/
def sortAsc (l : List ℚ) : List ℚ := l.foldr insertOrd []

/-- `np.median` of a one-dimensional array: middle element of the sorted
data for odd length, mean of the two middle elements for even length. -/
def npMedian (l : List ℚ) : ℚ :=
  let s := sortAsc l
  let n := s.length
  if n = 0 then 0
  else if n % 2 = 1 then s.getD (n / 2) 0
  else (s.getD (n / 2 - 1) 0 + s.getD (n / 2) 0) / 2

/-- `np.median(np.stack(ms), axis=0)`: per-component median of a list of
3×3 matrices. -/
def medianStack (ms : List Mat3) : Mat3 :=
  { a00 := npMedian (ms.map Mat3.a00), a01 := npMedian (ms.map Mat3.a01),
    a02 := npMedian (ms.map Mat3.a02), a10 := npMedian (ms.map Mat3.a10),
    a11 := npMedian (ms.map Mat3.a11), a12 := npMedian (ms.map Mat3.a12),
    a20 := npMedian (ms.map Mat3.a20), a21 := npMedian (ms.map Mat3.a21),
    a22 := npMedian (ms.map Mat3.a22) }

/-- The dictionary `camera_matrices` as an association list
`image name ↦ (camera matrix, radial distortion)`. -/
def lookupCam (tbl : List (String × Mat3 × ℚ)) (name : String) :
    Option (Mat3 × ℚ) :=
  (tbl.find? (fun e => e.1 = name)).map (fun e => e.2)

/-- Embedding of lines 737–746 for one query.  `prev` is the binding of the
Python local `cm` left over from earlier iterations (`none` if never
assigned).  Returns the `(camera_matrix, distortion_coeff)` actually used
plus the new binding of `cm`, or `Except.error` for the `NameError` raised
when `cm` is read unbound. -/
def camera_for_query (tbl : List (String × Mat3 × ℚ)) (prev : Option (Mat3 × ℚ))
    (query_path : String) : Except Unit ((Mat3 × ℚ) × Option (Mat3 × ℚ)) :=
  let backfall := medianStack (tbl.map (fun e => e.2.1))
  match lookupCam tbl query_path with
  | some cm => Except.ok ((cm.1, cm.2), some cm)
  | none =>
    match prev with
    | none => Except.error ()
    | some cm => Except.ok ((backfall, cm.2), some cm)

/-! ## Failure-cause classification (`evaluate.py` lines 950–1014)

`valid = errors > 5.0 | errors_rot > 10.0` is the failure mask;
`bn = ~(top_neighbor_match.max(axis=1) > 0)`, `fi = inlier_nums < 12 & ~bn`,
`li = inlier_rates < 10 & ~fi & ~bn`, `ot = ~li & ~fi & ~bn`; the reported
per-cause counts are the sums of each mask conjoined with `valid`. -/

/-- Per-query statistics entering `stats`: translation error (m), rotation
error (°), the row maximum of `top_neighbor_match`, the inlier count, and
the inlier rate (%). -/
structure QueryStat where
  err : ℚ
  errRot : ℚ
  topMatchMax : ℚ
  inlierNum : ℕ
  inlierRate : ℚ
deriving DecidableEq

/-- Failure mask `errors > 5.0 | errors_rot > 10.0` (line 950). -/
def validMask (q : QueryStat) : Bool :=
  decide ((5 : ℚ) < q.err) || decide ((10 : ℚ) < q.errRot)

/-- Bad-global-neighbour mask (line 972). -/
def bnMask (q : QueryStat) : Bool := !(decide ((0 : ℚ) < q.topMatchMax))

/-- Few-inliers mask, excluding bad neighbours (line 985). -/
def fiMask (q : QueryStat) : Bool :=
  decide (q.inlierNum < 12) && !(bnMask q)

/-- Low-inlier-rate mask, excluding the two previous causes (line 998). -/
def liMask (q : QueryStat) : Bool :=
  decide (q.inlierRate < 10) && !(fiMask q) && !(bnMask q)

/-- Residual mask (line 1011). -/
def otMask (q : QueryStat) : Bool :=
  !(liMask q) && !(fiMask q) && !(bnMask q)

/-- `np.sum` of a boolean mask over the batch. -/
def countMask (p : QueryStat → Bool) (l : List QueryStat) : ℕ := l.countP p

/-! ## `PointCloudSplit` (`genericdataset.py` lines 42–64)

The constructor walks `range(len(point_list))` and keeps `i` when
`i % split == 0` exactly for the validation dataset and otherwise exactly
for the training dataset; `__getitem__` indexes `point_list` at
`self.idcs[index]` and `__len__` is `len(self.idcs)`. -/

/-- The index list built by `PointCloudSplit.__init__` for a `point_list`
of length `n`. -/
def splitIdcs (n : ℕ) (val : Bool) (split : ℕ) : List ℕ :=
  (List.range n).filter (fun i => if i % split = 0 then val else !val)

/-- `PointCloudSplit.__getitem__`: `point_list[self.idcs[index]]`, as an
`Option` to keep out-of-range indexing explicit. -/
def pcs_getitem {α : Type} (point_list : List α) (val : Bool) (split : ℕ)
    (index : ℕ) : Option α :=
  match (splitIdcs point_list.length val split).get? index with
  | none => none
  | some idx => point_list.get? idx

end HLoc

deriving instance DecidableEq for Except

namespace HLoc

/-! # Theorems -/

/-! ## C1: correspondence-count gate and minimum-inlier gate -/

/-- C1: for every query, fewer than 5 matched 3D points means PnP-RANSAC is
not attempted and no pose is produced; and whenever a RANSAC candidate pose
was computed, refinement runs only if the inlier count reaches the
configured minimum `min_inliers`, otherwise the query fails with no pose. -/
theorem pose_gate_min_inliers (n : ℕ) (r : RansacOut) (m : ℕ) (ret : Bool)
    (p : ℕ) :
    (n < 5 →
      (solve_query_pose n r m ret p).ransacAttempted = false ∧
      (solve_query_pose n r m ret p).pose = none) ∧
    ((solve_query_pose n r m ret p).refinementRun = true →
      m ≤ numInliersOf r.inliers) ∧
    (numInliersOf r.inliers < m →
      (solve_query_pose n r m ret p).refinementRun = false ∧
      (solve_query_pose n r m ret p).pose = none) := by
  refine ⟨?_, ?_, ?_⟩
  · intro h5
    have h : ¬ 4 < n := by omega
    simp [solve_query_pose, h]
  · intro hr
    by_cases h : 4 < n
    · by_cases hs : (r.success && decide (m ≤ numInliersOf r.inliers)) = true
      · exact of_decide_eq_true (Bool.and_elim_right hs)
      · simp only [Bool.not_eq_true] at hs
        simp [solve_query_pose, h, hs] at hr
    · simp [solve_query_pose, h] at hr
  · intro hlt
    have hd : decide (m ≤ numInliersOf r.inliers) = false := by
      simp; omega
    have hs : (r.success && decide (m ≤ numInliersOf r.inliers)) = false := by
      simp [hd]
    by_cases h : 4 < n <;> simp [solve_query_pose, h, hs]

/-- Witness for C1 at concrete inputs: 3 correspondences skip RANSAC; a run
with 3 inliers and `min_inliers = 3` that refined indeed had enough inliers;
a run with 1 inlier and `min_inliers = 5` refines nothing and yields no
pose. -/
theorem pose_gate_min_inliers_witness :
    ((solve_query_pose 3 ⟨true, some [0]⟩ 5 true 0).ransacAttempted = false ∧
      (solve_query_pose 3 ⟨true, some [0]⟩ 5 true 0).pose = none) ∧
    (3 ≤ numInliersOf (RansacOut.mk true (some [1, 2, 3])).inliers) ∧
    ((solve_query_pose 10 ⟨true, some [1]⟩ 5 true 7).refinementRun = false ∧
      (solve_query_pose 10 ⟨true, some [1]⟩ 5 true 7).pose = none) :=
  ⟨(pose_gate_min_inliers 3 ⟨true, some [0]⟩ 5 true 0).1 (by decide),
   (pose_gate_min_inliers 10 ⟨true, some [1, 2, 3]⟩ 3 true 7).2.1 (by decide),
   (pose_gate_min_inliers 10 ⟨true, some [1]⟩ 5 true 7).2.2 (by decide)⟩

/-! ## C2: the greedy merge step of the cluster builder -/

/-- If no existing cluster contains the neighbour, a fresh cluster seeded
with its co-visibility set is appended at the end. -/
theorem insertNeighbor_not_mem (cov : ℤ → Finset ℤ) (ind : ℤ) :
    ∀ cs : List (Finset ℤ), (∀ c ∈ cs, ind ∉ c) →
      insertNeighbor cov ind cs = cs ++ [cov ind] := by
  intro cs
  induction cs with
  | nil => intro _; rfl
  | cons c cs ih =>
    intro h
    have hc : ind ∉ c := h c (List.mem_cons_self c cs)
    simp only [insertNeighbor, if_neg hc, List.cons_append, List.cons.injEq,
      true_and]
    exact ih (fun d hd => h d (List.mem_cons_of_mem c hd))

/-- The first cluster (in creation order) containing the neighbour absorbs
the neighbour's co-visibility set; all other clusters are unchanged. -/
theorem insertNeighbor_first_mem (cov : ℤ → Finset ℤ) (ind : ℤ) :
    ∀ (cs : List (Finset ℤ)) (j : ℕ), j < cs.length →
      ind ∈ cs.getD j ∅ → (∀ i, i < j → ind ∉ cs.getD i ∅) →
      insertNeighbor cov ind cs = cs.set j (cs.getD j ∅ ∪ cov ind) := by
  intro cs
  induction cs with
  | nil => intro j hj _ _; simp at hj
  | cons c cs ih =>
    intro j hj hmem hprev
    cases j with
    | zero =>
      simp only [List.getD_cons_zero] at hmem ⊢
      simp [insertNeighbor, if_pos hmem]
    | succ j =>
      have hc : ind ∉ c := by
        have := hprev 0 (Nat.succ_pos j)
        simpa using this
      simp only [List.getD_cons_succ] at hmem ⊢
      simp only [insertNeighbor, if_neg hc, List.set]
      refine congrArg (c :: ·) ?_
      refine ih j (by simpa using hj) hmem ?_
      intro i hi
      have := hprev (i + 1) (by omega)
      simpa using this

/-- C2: the cluster builder seeds the first cluster with the first ranked
neighbour's co-visibility set and folds over the remaining neighbours in
rank order; a step merges the neighbour's co-visibility set into the first
existing cluster (in creation order) containing its id, and otherwise
appends a new cluster seeded with that set. -/
theorem buildClusters_greedy_step :
    (∀ (cov : ℤ → Finset ℤ) (n : ℤ) (rest : List ℤ),
      buildClusters cov (n :: rest) =
        rest.foldl (fun cs ind => insertNeighbor cov ind cs) [cov n]) ∧
    (∀ (cov : ℤ → Finset ℤ) (ind : ℤ) (cs : List (Finset ℤ)),
      (∀ c ∈ cs, ind ∉ c) → insertNeighbor cov ind cs = cs ++ [cov ind]) ∧
    (∀ (cov : ℤ → Finset ℤ) (ind : ℤ) (cs : List (Finset ℤ)) (j : ℕ),
      j < cs.length → ind ∈ cs.getD j ∅ → (∀ i, i < j → ind ∉ cs.getD i ∅) →
      insertNeighbor cov ind cs = cs.set j (cs.getD j ∅ ∪ cov ind)) :=
  ⟨fun _ _ _ => rfl,
   fun cov ind cs h => insertNeighbor_not_mem cov ind cs h,
   fun cov ind cs j hj hmem hprev =>
     insertNeighbor_first_mem cov ind cs j hj hmem hprev⟩

/-- Witness for C2 at concrete inputs: with co-visibility map
`z ↦ {z, z+1}`, neighbour 3 absent from `[{5,6}]` appends a new cluster,
and neighbour 3 first contained in cluster 1 of `[{5,6},{3,9}]` merges its
set there. -/
theorem buildClusters_greedy_step_witness :
    buildClusters (fun z => {z, z + 1}) [(5 : ℤ), 3] = [{5, 6}, {3, 4}] ∧
    insertNeighbor (fun z => {z, z + 1}) 3 [{5, 6}] = [{5, 6}] ++ [{3, 4}] ∧
    insertNeighbor (fun z => {z, z + 1}) 3 [{5, 6}, {3, 9}] =
      List.set [{5, 6}, {3, 9}] 1 (List.getD [{5, 6}, {3, 9}] 1 ∅ ∪ {3, 4}) := by
  refine ⟨?_, ?_, ?_⟩
  · have h1 := (buildClusters_greedy_step.1 (fun z => {z, z + 1}) (5 : ℤ) [3])
    have h2 := buildClusters_greedy_step.2.1 (fun z => {z, z + 1}) 3
      [({5, 6} : Finset ℤ)] (by decide)
    rw [h1]
    simpa using h2
  · exact buildClusters_greedy_step.2.1 (fun z => {z, z + 1}) 3
      [({5, 6} : Finset ℤ)] (by decide)
  · exact buildClusters_greedy_step.2.2 (fun z => {z, z + 1}) 3
      [({5, 6} : Finset ℤ), {3, 9}] 1 (by decide) (by decide)
      (by decide)

/-! ## C3: the merge loses no coverage -/

/-- One merge step adds exactly the new co-visibility set to the union. -/
theorem unionAll_insertNeighbor (cov : ℤ → Finset ℤ) (ind : ℤ) :
    ∀ cs : List (Finset ℤ),
      unionAll (insertNeighbor cov ind cs) = unionAll cs ∪ cov ind := by
  intro cs
  induction cs with
  | nil => simp [insertNeighbor, unionAll]
  | cons c cs ih =>
    by_cases h : ind ∈ c
    · simp only [insertNeighbor, if_pos h, unionAll]
      rw [Finset.union_right_comm]
    · simp only [insertNeighbor, if_neg h, unionAll, ih, Finset.union_assoc]

/-- Folding merge steps over a neighbour list accumulates the union of all
their co-visibility sets. -/
theorem unionAll_foldl (cov : ℤ → Finset ℤ) :
    ∀ (rest : List ℤ) (cs : List (Finset ℤ)),
      unionAll (rest.foldl (fun cs ind => insertNeighbor cov ind cs) cs) =
        unionAll cs ∪ unionAll (rest.map cov) := by
  intro rest
  induction rest with
  | nil => intro cs; simp [unionAll]
  | cons ind rest ih =>
    intro cs
    simp only [List.foldl_cons, List.map_cons, unionAll, ih,
      unionAll_insertNeighbor, Finset.union_assoc]

/-- C3: for every co-visibility map and ranked neighbour list, the union of
the clusters built by the greedy merge equals the union of the co-visibility
sets of the ranked neighbours — no coverage is lost or gained. -/
theorem buildClusters_union_preserved (cov : ℤ → Finset ℤ) (ns : List ℤ) :
    unionAll (buildClusters cov ns) = unionAll (ns.map cov) := by
  cases ns with
  | nil => rfl
  | cons n rest =>
    simp only [buildClusters, List.map_cons, unionAll, unionAll_foldl,
      Finset.union_empty, Finset.empty_union]

/-! ## C4: verification-mode self-match removal -/

/-- While fewer than `k` non-self neighbours are accumulated, the loop
behaves as: append the accumulator to the first `k - j` non-self candidates
of the remaining list. -/
theorem cutLoop_take_filter (ids : ℕ → ℤ) (selfId k : ℕ) :
    ∀ (rest lst : List ℕ) (j : ℕ), j < k →
      cutLoop ids selfId k rest lst j =
        lst ++ (rest.filter
          (fun idx => decide ((ids idx).natAbs ≠ selfId))).take (k - j) := by
  intro rest
  induction rest with
  | nil => intro lst j _; simp [cutLoop]
  | cons idx rest ih =>
    intro lst j hj
    by_cases hid : (ids idx).natAbs ≠ selfId
    · simp only [cutLoop, if_pos hid, List.filter_cons,
        decide_eq_true_eq, hid, if_pos]
      by_cases hk : k ≤ j + 1
      · have hkj : k - j = 1 := by omega
        simp [hk, hkj]
      · have hkj : k - j = (k - (j + 1)) + 1 := by omega
        simp only [if_neg hk, ih (lst ++ [idx]) (j + 1) (by omega), hkj,
          List.take_succ_cons, List.append_assoc, List.singleton_append]
    · have hk : ¬ k ≤ j := by omega
      simp only [cutLoop, if_neg hid, if_neg hk, List.filter_cons,
        decide_eq_true_eq, hid, ite_false]
      exact ih lst j hj

/-- Nothing the loop returns refers to the self id, provided the accumulator
is already clean. -/
theorem cutLoop_no_self (ids : ℕ → ℤ) (selfId k : ℕ) :
    ∀ (rest lst : List ℕ) (j : ℕ),
      (∀ x ∈ lst, (ids x).natAbs ≠ selfId) →
      ∀ x ∈ cutLoop ids selfId k rest lst j, (ids x).natAbs ≠ selfId := by
  intro rest
  induction rest with
  | nil => intro lst j hlst; simpa [cutLoop] using hlst
  | cons idx rest ih =>
    intro lst j hlst
    have hlst1 : (ids idx).natAbs ≠ selfId →
        ∀ x ∈ lst ++ [idx], (ids x).natAbs ≠ selfId := by
      intro hid x hx
      rcases List.mem_append.mp hx with h | h
      · exact hlst x h
      · simpa [List.mem_singleton.mp h] using hid
    by_cases hid : (ids idx).natAbs ≠ selfId
    · simp only [cutLoop, if_pos hid]
      by_cases hk : k ≤ j + 1
      · simpa [hk] using hlst1 hid
      · simp only [if_neg hk]
        exact ih (lst ++ [idx]) (j + 1) (hlst1 hid)
    · simp only [cutLoop, if_neg hid]
      by_cases hk : k ≤ j
      · simpa [hk] using hlst
      · simp only [if_neg hk]
        exact ih lst j hlst

/-- C4 counterexample: with `n_neighbors = 0` the claimed stopping rule
(`stop once k non-self neighbours are accumulated`) would yield an empty
list, but the break check runs only after a candidate is processed, so the
first non-self candidate is still accumulated.  Row `[0, 1]` with image ids
`0 ↦ 5, 1 ↦ 7` yields one neighbour, exceeding `k = 0`. -/
theorem indices_cut_k_zero_overshoot :
    ¬ ((indices_cut_row (fun n => if n = 0 then (5 : ℤ) else 7) 0
      [0, 1]).length ≤ 0) := by
  decide

/-- C4 (amended): for `n_neighbors ≥ 1` the processed row is exactly the
first `k` candidates of `indices[i,1:]` whose absolute image id differs
from that of the top-ranked candidate, in rank order; and for every `k` the
result never contains a candidate with the query's own absolute image id. -/
theorem indices_cut_take_filter :
    (∀ (ids : ℕ → ℤ) (k first : ℕ) (rest : List ℕ), 1 ≤ k →
      indices_cut_row ids k (first :: rest) =
        (rest.filter
          (fun idx => decide ((ids idx).natAbs ≠ (ids first).natAbs))).take k) ∧
    (∀ (ids : ℕ → ℤ) (k first : ℕ) (rest : List ℕ) (idx : ℕ),
      idx ∈ indices_cut_row ids k (first :: rest) →
      (ids idx).natAbs ≠ (ids first).natAbs) := by
  constructor
  · intro ids k first rest hk
    have h := cutLoop_take_filter ids (ids first).natAbs k rest [] 0
      (by omega)
    simpa [indices_cut_row] using h
  · intro ids k first rest idx hmem
    exact cutLoop_no_self ids (ids first).natAbs k rest [] 0
      (by intro x hx; simp at hx) idx hmem

/-- Witness for C4 at concrete inputs: image ids `0 ↦ 5`, else `7`; row
`[0, 1, 2, 3]` with `k = 2` keeps the first two non-self candidates, and
the member `1` of the result is indeed non-self. -/
theorem indices_cut_take_filter_witness :
    (indices_cut_row (fun n => if n = 0 then (5 : ℤ) else 7) 2 [0, 1, 2, 3] =
      (List.filter
        (fun idx => decide (((fun n => if n = 0 then (5 : ℤ) else 7) idx).natAbs ≠
          ((fun n => if n = 0 then (5 : ℤ) else 7) 0).natAbs)) [1, 2, 3]).take 2) ∧
    (((fun n => if n = 0 then (5 : ℤ) else 7) 1).natAbs ≠
      ((fun n => if n = 0 then (5 : ℤ) else 7) 0).natAbs) :=
  ⟨indices_cut_take_filter.1 (fun n => if n = 0 then (5 : ℤ) else 7) 2 0
      [1, 2, 3] (by decide),
   indices_cut_take_filter.2 (fun n => if n = 0 then (5 : ℤ) else 7) 2 0
      [1, 2, 3] 1 (by decide)⟩

/-! ## C5: bidirectional matching -/

/-- C5 counterexample: with a matcher whose forward pass maps query
descriptor 0 to database descriptor 1, and whose reverse pass maps database
descriptor 0 back to query descriptor 0, the pair `(0, 1)` is retained
although the reverse match list contains no `(1, 0)` — the reverse search
for the *matched* database descriptor 1 does not point back to query
descriptor 0, refuting the claimed mutual-consistency criterion. -/
theorem double_matching_not_mutual :
    ((0, 1) : ℕ × ℕ) ∈ double_matching
      (fun a _b : ℕ => if a = 0 then [((0 : ℕ), (1 : ℕ))] else [(0, 0)]) 0 1 ∧
    ((1, 0) : ℕ × ℕ) ∉
      (fun a _b : ℕ => if a = 0 then [((0 : ℕ), (1 : ℕ))] else [(0, 0)]) 1 0 := by
  decide

/-- C5 (amended): a forward match `(q, d)` is retained iff `q` appears as
the matched query index of *some* reverse match (any database descriptor's
reverse search pointing to `q` suffices; the matched `d` itself need not
point back); consequently the output never contains a pair absent from the
forward matching output. -/
theorem double_matching_mem {α : Type} (mfn : α → α → List (ℕ × ℕ))
    (q n : α) (p : ℕ × ℕ) :
    p ∈ double_matching mfn q n ↔
      p ∈ mfn q n ∧ ∃ x ∈ mfn n q, x.2 = p.1 := by
  unfold double_matching
  by_cases h : (mfn q n).length = 0 ∨ (mfn n q).length = 0
  · rcases h with h0 | h0
    · have he : mfn q n = [] := List.length_eq_zero.mp h0
      simp [he]
    · have he : mfn n q = [] := List.length_eq_zero.mp h0
      simp [he, List.length_eq_zero.mpr he]
  · simp only [if_neg h, List.mem_filter, decide_eq_true_eq, List.mem_map]

/-! ## C6: refiltered matching is a two-pass filter, not a single pass -/

/-- C6 counterexample: one cluster with a single member image holding the
3D point 7; the matcher pairs the first query descriptor with the first
database descriptor whenever both sides are nonempty.  The single-pass
pooling the claim describes returns the correspondence `(0, 7)`, but the
code first matches per image and, with only one contributing image
(`len(data_descs) < 2`), returns no correspondences at all. -/
theorem refilter_not_single_pass :
    match_local_refilter
        (fun q d => if q ≠ [] ∧ d ≠ [] then [((0 : ℕ), (0 : ℕ))] else [])
        false [1] [[⟨[7], [3]⟩]] ≠
      refilter_spec_pool
        (fun q d => if q ≠ [] ∧ d ≠ [] then [((0 : ℕ), (0 : ℕ))] else [])
        false [1] [[⟨[7], [3]⟩]] ∧
    match_local_refilter
        (fun q d => if q ≠ [] ∧ d ≠ [] then [((0 : ℕ), (0 : ℕ))] else [])
        false [1] [[⟨[7], [3]⟩]] = [] ∧
    refilter_spec_pool
        (fun q d => if q ≠ [] ∧ d ≠ [] then [((0 : ℕ), (0 : ℕ))] else [])
        false [1] [[⟨[7], [3]⟩]] = [(0, 7)] := by
  decide

/-- The inner image loop of the refilter branch accumulates, after the
blocks already collected, the per-image blocks of the images with at least
one first-pass match, in image order. -/
theorem refilter_inner_fold (mfn : List ℕ → List ℕ → List (ℕ × ℕ))
    (dbl : Bool) (q : List ℕ) :
    ∀ (c : List DbImage) (acc : List (List ℕ × List ℕ)),
      c.foldl (fun acc img =>
        if 0 < (imageBlock mfn dbl q img).1.length
        then acc ++ [imageBlock mfn dbl q img] else acc) acc =
      acc ++ (c.map (imageBlock mfn dbl q)).filter
        (fun b => 0 < b.1.length) := by
  intro c
  induction c with
  | nil => intro acc; simp
  | cons img c ih =>
    intro acc
    by_cases h : 0 < (imageBlock mfn dbl q img).1.length
    · simp [List.filter_cons, h, ih, List.append_assoc]
    · simp [List.filter_cons, h, ih]

/-- The nested cluster/image loops flatten to one pass over all member
images of all clusters. -/
theorem refilterPools_eq (mfn : List ℕ → List ℕ → List (ℕ × ℕ))
    (dbl : Bool) (q : List ℕ) (cq : List (List DbImage)) :
    refilterPools mfn dbl q cq = twopassPools mfn dbl q cq := by
  suffices h : ∀ (cq : List (List DbImage)) (acc : List (List ℕ × List ℕ)),
      cq.foldl (fun acc c =>
        c.foldl (fun acc img =>
          if 0 < (imageBlock mfn dbl q img).1.length
          then acc ++ [imageBlock mfn dbl q img] else acc) acc) acc =
      acc ++ ((cq.flatten).map (imageBlock mfn dbl q)).filter
        (fun b => 0 < b.1.length) by
    simpa [refilterPools, twopassPools] using h cq []
  intro cq
  induction cq with
  | nil => intro acc; simp
  | cons c cq ih =>
    intro acc
    rw [List.foldl_cons, refilter_inner_fold, ih, List.flatten_cons,
      List.map_append, List.filter_append, List.append_assoc]

/-- C6 (amended): with refiltering enabled the matcher runs a first pass
per member image, pools per contributing image the matched
(3D point, descriptor) pairs, returns no correspondences unless at least
two images contributed, and otherwise reruns one matching pass of the query
descriptors against the concatenated pool of first-pass survivors; the
returned correspondences are exactly the survivors of that second pass. -/
theorem match_local_refilter_twopass (mfn : List ℕ → List ℕ → List (ℕ × ℕ))
    (dbl : Bool) (q : List ℕ) (cq : List (List DbImage)) :
    match_local_refilter mfn dbl q cq = refilter_twopass mfn dbl q cq := by
  unfold match_local_refilter refilter_twopass
  rw [refilterPools_eq]
  by_cases h : (twopassPools mfn dbl q cq).length < 2
  · rw [if_pos (Or.inr h), if_pos h]
  · have h1 : ¬ ((twopassPools mfn dbl q cq).length < 1 ∨
        (twopassPools mfn dbl q cq).length < 2) := by omega
    rw [if_neg h1, if_neg h]

/-! ## C7: a failed query aborts the whole batch in verify mode -/

/-- C7: in verify mode a failed first query leaves the locals
`quat`/`position` unbound, the error computation of lines 794–801 raises
`NameError`, and the whole batch run terminates — the second (successful)
query is never processed; by contrast, in non-verify mode the failed query
writes no output line and the loop continues to the next query. -/
theorem verify_failure_aborts_batch :
    run_batch true [(false, (0, 0)), (true, (1, 1))] ⟨none, 0, 0⟩ =
      Except.error () ∧
    run_batch false [(false, (0, 0)), (true, (1, 1))] ⟨none, 0, 0⟩ =
      Except.ok ⟨some (1, 1), 1, 0⟩ := by
  decide

/-! ## C8: missing intrinsics read the unbound or stale local `cm` -/

/-- C8: a query whose path is missing from `camera_matrices` does get the
per-component median camera matrix, but `distortion_coeff = cm['rad_dist']`
reads the local `cm`: when no earlier query had known intrinsics this
raises `NameError` (first conjunct — the query is fatal, not recovered),
and otherwise the distortion coefficient is the stale one of the previous
known-intrinsics query (second conjunct: matrix entries are the
per-component medians, distortion is `2`, the previous entry's value). -/
theorem missing_intrinsics_unbound_cm :
    camera_for_query [("a", ⟨1, 0, 2, 0, 1, 3, 0, 0, 1⟩, 2)] none "q" =
      Except.error () ∧
    camera_for_query
      [("a", ⟨1, 0, 2, 0, 1, 3, 0, 0, 1⟩, 2),
       ("b", ⟨3, 0, 4, 0, 3, 5, 0, 0, 1⟩, 4),
       ("c", ⟨5, 0, 6, 0, 5, 7, 0, 0, 1⟩, 6)]
      (some (⟨1, 0, 2, 0, 1, 3, 0, 0, 1⟩, 2)) "q" =
      Except.ok ((⟨3, 0, 4, 0, 3, 5, 0, 0, 1⟩, 2),
        some (⟨1, 0, 2, 0, 1, 3, 0, 0, 1⟩, 2)) := by
  decide

/-! ## C9: the failure-cause classification partitions the failure set -/

/-- At every single query, the four cause masks are pairwise exclusive and
exactly one of them holds. -/
theorem mask_pointwise (q : QueryStat) :
    (bnMask q && fiMask q) = false ∧ (bnMask q && liMask q) = false ∧
    (bnMask q && otMask q) = false ∧ (fiMask q && liMask q) = false ∧
    (fiMask q && otMask q) = false ∧ (liMask q && otMask q) = false ∧
    (bnMask q).toNat + (fiMask q).toNat + (liMask q).toNat +
      (otMask q).toNat = 1 := by
  cases h1 : decide ((0 : ℚ) < q.topMatchMax) <;>
    cases h2 : decide (q.inlierNum < 12) <;>
      cases h3 : decide (q.inlierRate < 10) <;>
        simp [bnMask, fiMask, liMask, otMask, h1, h2, h3]

/-- C9: over every batch, the four per-cause failure counts — bad global
neighbours first, then few inliers (< 12), then low inlier rate (< 10 %),
then other — are pairwise disjoint (no query is counted under two causes)
and sum to the total number of failures
(`errors > 5.0 ∨ errors_rot > 10.0`). -/
theorem failure_cause_partition (l : List QueryStat) :
    countMask (fun q => (bnMask q && fiMask q) && validMask q) l = 0 ∧
    countMask (fun q => (bnMask q && liMask q) && validMask q) l = 0 ∧
    countMask (fun q => (bnMask q && otMask q) && validMask q) l = 0 ∧
    countMask (fun q => (fiMask q && liMask q) && validMask q) l = 0 ∧
    countMask (fun q => (fiMask q && otMask q) && validMask q) l = 0 ∧
    countMask (fun q => (liMask q && otMask q) && validMask q) l = 0 ∧
    countMask (fun q => bnMask q && validMask q) l +
      countMask (fun q => fiMask q && validMask q) l +
      countMask (fun q => liMask q && validMask q) l +
      countMask (fun q => otMask q && validMask q) l =
      countMask validMask l := by
  refine ⟨?_, ?_, ?_, ?_, ?_, ?_, ?_⟩
  · refine List.countP_eq_zero.mpr (fun a _ => ?_)
    simp [(mask_pointwise a).1]
  · refine List.countP_eq_zero.mpr (fun a _ => ?_)
    simp [(mask_pointwise a).2.1]
  · refine List.countP_eq_zero.mpr (fun a _ => ?_)
    simp [(mask_pointwise a).2.2.1]
  · refine List.countP_eq_zero.mpr (fun a _ => ?_)
    simp [(mask_pointwise a).2.2.2.1]
  · refine List.countP_eq_zero.mpr (fun a _ => ?_)
    simp [(mask_pointwise a).2.2.2.2.1]
  · refine List.countP_eq_zero.mpr (fun a _ => ?_)
    simp [(mask_pointwise a).2.2.2.2.2.1]
  · induction l with
    | nil => rfl
    | cons a l ih =>
      have h7 := (mask_pointwise a).2.2.2.2.2.2
      simp only [countMask, List.countP_cons] at ih ⊢
      cases hv : validMask a <;>
        cases hb : bnMask a <;> cases hf : fiMask a <;>
          cases hl : liMask a <;> cases ho : otMask a <;>
            simp [hv, hb, hf, hl, ho] at h7 ⊢ <;> omega

/-! ## C10: the `PointCloudSplit` train/validation partition -/

/-- Splitting a list by a boolean predicate conserves its length. -/
theorem length_filter_not_add {β : Type} (p : β → Bool) (l : List β) :
    (l.filter p).length + (l.filter (fun x => !(p x))).length = l.length := by
  induction l with
  | nil => rfl
  | cons a l ih =>
    cases h : p a <;> simp [List.filter_cons, h] <;> omega

/-- C10: for every `point_list` length `n` and split value `s ≥ 1`, the
validation dataset selects exactly the indices divisible by `s`, the
training dataset exactly the others, the two index sets are disjoint with
lengths summing to `n`, and `__getitem__` returns the element of
`point_list` at the selected index. -/
theorem pointCloudSplit_partition (n s : ℕ) (_hs : 1 ≤ s) :
    (∀ i : ℕ, i ∈ splitIdcs n true s ↔ i < n ∧ s ∣ i) ∧
    (∀ i : ℕ, i ∈ splitIdcs n false s ↔ i < n ∧ ¬ s ∣ i) ∧
    (splitIdcs n true s).length + (splitIdcs n false s).length = n ∧
    (∀ (pl : List ℤ) (val : Bool) (index idx : ℕ), pl.length = n →
      (splitIdcs n val s).get? index = some idx →
      pcs_getitem pl val s index = pl.get? idx) := by
  have hdvd : ∀ i : ℕ, i % s = 0 ↔ s ∣ i := by
    intro i
    exact Iff.symm Nat.dvd_iff_mod_eq_zero
  refine ⟨?_, ?_, ?_, ?_⟩
  · intro i
    simp [splitIdcs, List.mem_filter, List.mem_range, hdvd i]
  · intro i
    simp [splitIdcs, List.mem_filter, List.mem_range, hdvd i]
  · have hcongr : splitIdcs n false s = (List.range n).filter
        (fun i => !(if i % s = 0 then (true : Bool) else !true)) := by
      refine List.filter_congr (fun i _ => ?_)
      by_cases h : i % s = 0 <;> simp [h]
    rw [splitIdcs, hcongr, length_filter_not_add, List.length_range]
  · intro pl val index idx hlen hget
    rw [List.get?_eq_getElem?] at hget
    simp [pcs_getitem, hlen, List.get?_eq_getElem?, hget]

/-- Witness for C10 at `n = 4`, `s = 2`: discharges `1 ≤ s` concretely. -/
theorem pointCloudSplit_partition_witness :
    (1 : ℕ) ≤ 2 ∧
    ((∀ i : ℕ, i ∈ splitIdcs 4 true 2 ↔ i < 4 ∧ 2 ∣ i) ∧
     (∀ i : ℕ, i ∈ splitIdcs 4 false 2 ↔ i < 4 ∧ ¬ 2 ∣ i) ∧
     (splitIdcs 4 true 2).length + (splitIdcs 4 false 2).length = 4 ∧
     (∀ (pl : List ℤ) (val : Bool) (index idx : ℕ), pl.length = 4 →
       (splitIdcs 4 val 2).get? index = some idx →
       pcs_getitem pl val 2 index = pl.get? idx)) :=
  ⟨by decide, pointCloudSplit_partition 4 2 (by decide)⟩

end HLoc
